import Mathlib

/-!
Verification of the Agent Registry & Workflow Readiness Engine of the
`frontend_light` dashboard.  The logic under scrutiny lives in
`frontend_light/components/WorkflowCard.tsx`: the helper
`getRequiredAgents` (name resolution of workflow steps against the agent
registry snapshot) and the component-local `getWorkflowStatus` (readiness
aggregation).  Both are pure functions over their arguments, so they are
embedded directly as Lean functions.

Strings are modelled as Lean `String`s; JavaScript `toLowerCase` is
modelled per-character with `Char.toLower`, and `haystack.includes(needle)`
as substring containment on the character lists (`List.isInfixOf`).  The
JavaScript truthiness test `if (step.agentName)` on a string is exactly
"the string is nonempty".  A JS `Set` iterates in insertion order, so the
unique-name collection is a fold that appends a name the first time it is
seen.  Only the fields the two functions read are modelled: `Agent.name`
and `Agent.status` from the registry export, and `step.agentName` (plus
`task`, carried but unread) from the workflow step schema.
-/

namespace A2A

/-- Registered agent as exported by the registry: display `name` and the
liveness classification `status` (`"online"` or `"offline"`). -/
structure Agent where
  name : String
  status : String
deriving DecidableEq, Repr

/-- Per-required-agent status record produced by `getRequiredAgents`
(the `AgentStatus` interface of `WorkflowCard.tsx`). -/
structure AgentStatus where
  agentName : String
  isOnline : Bool
  isEnabled : Bool
deriving DecidableEq, Repr

/-- One workflow step: the declared agent name and its task. -/
structure WorkflowStep where
  agentName : String
  task : String
deriving DecidableEq, Repr

/-- Workflow definition; only `steps` is read by the readiness logic, the
other fields are presentation metadata. -/
structure Workflow where
  id : String := ""
  name : String := ""
  description : String := ""
  category : String := ""
  isCustom : Bool := false
  steps : List WorkflowStep := []
deriving DecidableEq, Repr

/-- JavaScript `s.toLowerCase()`, modelled per character. -/
def jsToLower (s : String) : String :=
  String.mk (s.data.map Char.toLower)

/-- Containment on character lists: `occursIn t s` holds when `t` occurs
as a contiguous run inside `s`. -/
def occursIn (t : List Char) : List Char → Bool
  | [] => t.isEmpty
  | c :: cs => t.isPrefixOf (c :: cs) || occursIn t cs

/-- JavaScript `s.includes(t)`: `t` occurs as a contiguous substring of `s`. -/
def jsIncludes (s t : String) : Bool :=
  occursIn t.data s.data

/-- The matching predicate of `getRequiredAgents` (WorkflowCard.tsx lines
176-180): one disjunction per registered agent, namely case-insensitive
equality, or the declared name occurring inside the registered name, or
the registered name occurring inside the declared name. -/
def agentMatches (a : Agent) (agentName : String) : Bool :=
  jsToLower a.name == jsToLower agentName ||
  jsIncludes (jsToLower a.name) (jsToLower agentName) ||
  jsIncludes (jsToLower agentName) (jsToLower a.name)

/-- The `allAgents.find(...)` call of `getRequiredAgents`: first agent in
registry iteration order satisfying `agentMatches`, if any. -/
def findMatchingAgent (agentName : String) (allAgents : List Agent) : Option Agent :=
  allAgents.find? (fun a => agentMatches a agentName)

/-- One iteration of the unique-name collection: skip a falsy (empty)
`agentName`, and add a remaining name to the set on first sight only
(`Set.add` is a no-op on an already-present element). -/
def addStepName (acc : List String) (step : WorkflowStep) : List String :=
  if step.agentName ≠ "" ∧ step.agentName ∉ acc then acc ++ [step.agentName]
  else acc

/-- The unique-name collection of `getRequiredAgents` (lines 167-172):
walk the steps accumulating into the set; `Array.from` then yields the
names in insertion order. -/
def requiredAgentNames (steps : List WorkflowStep) : List String :=
  steps.foldl addStepName []

/-- `getRequiredAgents` (lines 165-188): one `AgentStatus` per unique
declared name; `isOnline` is true exactly when the resolver found an agent
whose `status` is `"online"` (`matchingAgent?.status === 'online'`), and
`isEnabled` is always false here (set by the parent). -/
def getRequiredAgents (workflow : Workflow) (allAgents : List Agent) : List AgentStatus :=
  (requiredAgentNames workflow.steps).map fun agentName =>
    { agentName := agentName
      isOnline :=
        match findMatchingAgent agentName allAgents with
        | some a => a.status == "online"
        | none => false
      isEnabled := false }

/-- `getWorkflowStatus` (lines 40-48): readiness aggregation over the
activation flag and the per-agent statuses, returning one of the four
literals `"ready" | "partial" | "unavailable" | "disabled"`. -/
def getWorkflowStatus (isActivated : Bool) (agentStatuses : List AgentStatus) : String :=
  if isActivated = false then "disabled"
  else if agentStatuses.length = 0 then "ready"
  else
    let onlineCount := (agentStatuses.filter fun s => s.isOnline).length
    if onlineCount = agentStatuses.length then "ready"
    else if onlineCount > 0 then "partial"
    else "unavailable"

/-- The composed Readiness Engine of the spec:
`status(workflow, activated, registrySnapshot)` resolves the workflow's
requirements against the snapshot and aggregates them. -/
def readinessStatus (workflow : Workflow) (activated : Bool) (snapshot : List Agent) : String :=
  getWorkflowStatus activated (getRequiredAgents workflow snapshot)

/-- The readiness algorithm as the spec words it (section 4.4 / the C1
sentence): `disabled` when not activated; `ready` on an empty status list;
otherwise `ready` when every status is online, `unavailable` when none is,
and `partial` otherwise.  Spec-side definition, to be compared with
`getWorkflowStatus`. -/
def specWorkflowStatus (activated : Bool) (statuses : List AgentStatus) : String :=
  if activated = false then "disabled"
  else if statuses = [] then "ready"
  else if statuses.all (fun s => s.isOnline) then "ready"
  else if statuses.all (fun s => !s.isOnline) then "unavailable"
  else "partial"

theorem length_filter_eq_length_iff {α : Type} (p : α → Bool) (l : List α) :
    (l.filter p).length = l.length ↔ ∀ a ∈ l, p a = true := by
  constructor
  · intro h a ha
    have hf : l.filter p = l :=
      (List.filter_sublist l).eq_of_length h
    exact List.of_mem_filter (hf ▸ ha)
  · intro h
    rw [List.filter_eq_self.2 h]

theorem length_filter_eq_zero_iff {α : Type} (p : α → Bool) (l : List α) :
    (l.filter p).length = 0 ↔ ∀ a ∈ l, p a = false := by
  rw [List.length_eq_zero, List.filter_eq_nil_iff]
  constructor
  · intro h a ha
    exact Bool.eq_false_iff.2 (h a ha)
  · intro h a ha
    exact Bool.eq_false_iff.1 (h a ha)

/-- Claim C1: for every activation flag and list of per-agent statuses,
`getWorkflowStatus` returns exactly the value the spec's algorithm
prescribes: `disabled` when not activated; otherwise `ready` on an empty
list; otherwise `ready` when every status is online, `unavailable` when
none is, and `partial` otherwise. -/
theorem claim_C1 (act : Bool) (l : List AgentStatus) :
    getWorkflowStatus act l = specWorkflowStatus act l := by
  unfold getWorkflowStatus specWorkflowStatus
  cases act with
  | false => simp
  | true =>
    simp only [Bool.true_eq_false, if_false]
    by_cases hnil : l = []
    · subst hnil; simp
    · have hlen : ¬ l.length = 0 := by
        simpa [List.length_eq_zero] using hnil
      rw [if_neg hlen, if_neg hnil]
      by_cases hall : ∀ s ∈ l, s.isOnline = true
      · rw [if_pos ((length_filter_eq_length_iff _ l).2 hall),
          if_pos (by simpa [List.all_eq_true] using hall)]
      · have hflt : ¬ (l.filter fun s => s.isOnline).length = l.length := by
          intro h; exact hall ((length_filter_eq_length_iff _ l).1 h)
        have hall' : ¬ (l.all fun s => s.isOnline) = true := by
          intro h; exact hall (by simpa [List.all_eq_true] using h)
        rw [if_neg hflt, if_neg hall']
        by_cases hnone : ∀ s ∈ l, s.isOnline = false
        · have h0 : (l.filter fun s => s.isOnline).length = 0 :=
            (length_filter_eq_zero_iff _ l).2 hnone
          have hng : ¬ (l.filter fun s => s.isOnline).length > 0 := by omega
          rw [if_neg hng, if_pos (by simpa [List.all_eq_true] using hnone)]
        · have hnone' : ¬ (l.all fun s => !s.isOnline) = true := by
            intro h; apply hnone; intro s hs
            simpa using (List.all_eq_true.1 h) s hs
          have hpos : (l.filter fun s => s.isOnline).length > 0 := by
            rcases Nat.eq_zero_or_pos (l.filter fun s => s.isOnline).length with h0 | h
            · exact absurd ((length_filter_eq_zero_iff _ l).1 h0) hnone
            · exact h
          rw [if_pos hpos, if_neg hnone']

/-- Counterexample for claim C2: the registry holds `"Deep Search"`
(offline) before `"search"` (online); the declared name `"search"` equals
the second agent's name case-insensitively, yet the resolver returns the
first agent, a mere containment match, and reports the requirement
offline. -/
theorem claim_C2_cex :
    findMatchingAgent "search" [⟨"Deep Search", "offline"⟩, ⟨"search", "online"⟩] =
      some ⟨"Deep Search", "offline"⟩ ∧
    jsToLower (Agent.mk "search" "online").name = jsToLower "search" ∧
    jsToLower (Agent.mk "Deep Search" "offline").name ≠ jsToLower "search" ∧
    getRequiredAgents { steps := [⟨"search", "find it"⟩] }
        [⟨"Deep Search", "offline"⟩, ⟨"search", "online"⟩] =
      [{ agentName := "search", isOnline := false, isEnabled := false }] := by
  refine ⟨rfl, rfl, by decide, rfl⟩

/-- Claim C2 (amended): the resolver evaluates the three matching
conditions as a single disjunction per registered agent and returns the
first agent in registry iteration order satisfying any of them; an exact
(rule-1) match on a later agent confers no priority over a containment
(rule-2) match on an earlier agent. -/
theorem claim_C2 (agentName : String) (pre post : List Agent) (a : Agent)
    (ha : agentMatches a agentName = true)
    (hpre : ∀ b ∈ pre, agentMatches b agentName = false) :
    findMatchingAgent agentName (pre ++ a :: post) = some a := by
  induction pre with
  | nil =>
    simp [findMatchingAgent, List.find?, ha]
  | cons b bs ih =>
    have hb : agentMatches b agentName = false := hpre b (List.mem_cons_self b bs)
    have hstep : findMatchingAgent agentName ((b :: bs) ++ a :: post) =
        findMatchingAgent agentName (bs ++ a :: post) := by
      simp [findMatchingAgent, List.find?, hb]
    rw [hstep]
    exact ih fun c hc => hpre c (List.mem_cons_of_mem _ hc)

theorem claim_C2_witness :
    findMatchingAgent "stripe" ([⟨"pay", "offline"⟩] ++ ⟨"stripe", "online"⟩ :: []) =
      some ⟨"stripe", "online"⟩ :=
  claim_C2 "stripe" [⟨"pay", "offline"⟩] [] ⟨"stripe", "online"⟩ (by decide)
    (by decide)

/-- The agent registered as `"Deep Search Agent"`, online. -/
def deepSearchAgent : Agent := ⟨"Deep Search Agent", "online"⟩

/-- Counterexample for claim C3: the declared step name `"deep_search"`
matches the registered name `"Deep Search Agent"` under none of the rules
(the underscore is not a space, so neither lowered string contains the
other), hence the resolver returns no agent even though that agent is
online. -/
theorem claim_C3_cex :
    findMatchingAgent "deep_search" [deepSearchAgent] = none ∧
    deepSearchAgent.status = "online" := by
  refine ⟨by decide, rfl⟩

/-- Claim C3 (amended): resolving the declared step name `"deep_search"`
against a registry containing the agent `"Deep Search Agent"` fails: the
step is left unresolved and reported offline (`isOnline = false`) even
though the agent is online. -/
theorem claim_C3 :
    getRequiredAgents { steps := [⟨"deep_search", "search the web"⟩] } [deepSearchAgent] =
      [{ agentName := "deep_search", isOnline := false, isEnabled := false }] := by
  decide

/-- Claim C4: the composed readiness computation is total and
deterministic: its value is always one of the four literals `"ready"`,
`"partial"`, `"unavailable"`, `"disabled"`, and two evaluations on
identical inputs give the same result. -/
theorem claim_C4 (wf : Workflow) (act : Bool) (reg : List Agent) :
    (readinessStatus wf act reg = "ready" ∨ readinessStatus wf act reg = "partial" ∨
      readinessStatus wf act reg = "unavailable" ∨ readinessStatus wf act reg = "disabled")
    ∧ readinessStatus wf act reg = readinessStatus wf act reg := by
  refine ⟨?_, rfl⟩
  unfold readinessStatus getWorkflowStatus
  dsimp only
  by_cases h1 : act = false
  · rw [if_pos h1]; exact Or.inr (Or.inr (Or.inr rfl))
  · rw [if_neg h1]
    by_cases h2 : (getRequiredAgents wf reg).length = 0
    · rw [if_pos h2]; exact Or.inl rfl
    · rw [if_neg h2]
      by_cases h3 : (List.filter (fun s => s.isOnline) (getRequiredAgents wf reg)).length =
          (getRequiredAgents wf reg).length
      · rw [if_pos h3]; exact Or.inl rfl
      · rw [if_neg h3]
        by_cases h4 : (List.filter (fun s => s.isOnline) (getRequiredAgents wf reg)).length > 0
        · rw [if_pos h4]; exact Or.inr (Or.inl rfl)
        · rw [if_neg h4]; exact Or.inr (Or.inr (Or.inl rfl))

/-- The workflow of the spec's stripe/twilio scenario: two steps declaring
the agent names `"stripe"` and `"twilio"`. -/
def stripeTwilioWorkflow : Workflow :=
  { steps := [⟨"stripe", "charge the card"⟩, ⟨"twilio", "send the sms"⟩] }

/-- Registry with agents registered under the names `"stripe"` and
`"twilio"`, their statuses given as parameters. -/
def stripeTwilioRegistry (s1 s2 : String) : List Agent :=
  [⟨"stripe", s1⟩, ⟨"twilio", s2⟩]

/-- Claim C5: for the activated stripe/twilio workflow, with agents
registered under those names: stripe online and twilio offline gives
`partial`; both online gives `ready`; both offline gives `unavailable`;
and when neither name matches any registered agent the status is
`unavailable` as well. -/
theorem claim_C5 (s1 s2 : String) (reg : List Agent) :
    (s1 = "online" → s2 ≠ "online" →
      readinessStatus stripeTwilioWorkflow true (stripeTwilioRegistry s1 s2) = "partial") ∧
    (s1 = "online" → s2 = "online" →
      readinessStatus stripeTwilioWorkflow true (stripeTwilioRegistry s1 s2) = "ready") ∧
    (s1 ≠ "online" → s2 ≠ "online" →
      readinessStatus stripeTwilioWorkflow true (stripeTwilioRegistry s1 s2) = "unavailable") ∧
    (findMatchingAgent "stripe" reg = none → findMatchingAgent "twilio" reg = none →
      readinessStatus stripeTwilioWorkflow true reg = "unavailable") := by
  refine ⟨?_, ?_, ?_, ?_⟩
  · intro h1 h2
    subst h1
    have e2 : (s2 == "online") = false := beq_eq_false_iff_ne.2 h2
    show getWorkflowStatus true
        [⟨"stripe", true, false⟩, ⟨"twilio", s2 == "online", false⟩] = "partial"
    rw [e2]
    decide
  · intro h1 h2
    subst h1; subst h2
    decide
  · intro h1 h2
    have e1 : (s1 == "online") = false := beq_eq_false_iff_ne.2 h1
    have e2 : (s2 == "online") = false := beq_eq_false_iff_ne.2 h2
    show getWorkflowStatus true
        [⟨"stripe", s1 == "online", false⟩, ⟨"twilio", s2 == "online", false⟩] = "unavailable"
    rw [e1, e2]
    decide
  · intro hf1 hf2
    have hnames : requiredAgentNames stripeTwilioWorkflow.steps = ["stripe", "twilio"] := rfl
    have hreq : getRequiredAgents stripeTwilioWorkflow reg =
        [⟨"stripe", false, false⟩, ⟨"twilio", false, false⟩] := by
      simp only [getRequiredAgents, hnames, List.map_cons, List.map_nil, hf1, hf2]
    unfold readinessStatus
    rw [hreq]
    decide

theorem claim_C5_witness :
    readinessStatus stripeTwilioWorkflow true (stripeTwilioRegistry "online" "offline") = "partial" ∧
    readinessStatus stripeTwilioWorkflow true (stripeTwilioRegistry "online" "online") = "ready" ∧
    readinessStatus stripeTwilioWorkflow true (stripeTwilioRegistry "offline" "offline") = "unavailable" ∧
    readinessStatus stripeTwilioWorkflow true [] = "unavailable" :=
  ⟨(claim_C5 "online" "offline" []).1 rfl (by decide),
   (claim_C5 "online" "online" []).2.1 rfl rfl,
   (claim_C5 "offline" "offline" []).2.2.1 (by decide) (by decide),
   (claim_C5 "x" "y" []).2.2.2 rfl rfl⟩

/-- Claim C6: resolution is total and errorless: `getRequiredAgents`
yields one entry per unique declared name, and a declared name matching no
registered agent still gets an entry, with `isOnline = false`. -/
theorem claim_C6 (wf : Workflow) (reg : List Agent) (agentName : String)
    (hmem : agentName ∈ requiredAgentNames wf.steps) :
    (getRequiredAgents wf reg).length = (requiredAgentNames wf.steps).length ∧
    ∃ st ∈ getRequiredAgents wf reg, st.agentName = agentName ∧ st.isEnabled = false ∧
      (findMatchingAgent agentName reg = none → st.isOnline = false) := by
  constructor
  · simp [getRequiredAgents]
  · refine ⟨_, List.mem_map_of_mem _ hmem, rfl, rfl, ?_⟩
    intro h
    show (match findMatchingAgent agentName reg with
      | some a => a.status == "online"
      | none => false) = false
    rw [h]

theorem claim_C6_witness :
    (getRequiredAgents { steps := [⟨"alpha", "t"⟩] } []).length =
      (requiredAgentNames [⟨"alpha", "t"⟩]).length ∧
    ∃ st ∈ getRequiredAgents { steps := [⟨"alpha", "t"⟩] } [], st.agentName = "alpha" ∧
      st.isEnabled = false ∧ (findMatchingAgent "alpha" [] = none → st.isOnline = false) :=
  claim_C6 { steps := [⟨"alpha", "t"⟩] } [] "alpha" (by decide)

theorem addStepName_idem (acc : List String) (s : WorkflowStep) :
    addStepName (addStepName acc s) s = addStepName acc s := by
  unfold addStepName
  by_cases h : s.agentName ≠ "" ∧ s.agentName ∉ acc
  · rw [if_pos h, if_neg]
    rintro ⟨-, hnm⟩
    exact hnm (List.mem_append.2 (Or.inr (List.mem_singleton.2 rfl)))
  · rw [if_neg h, if_neg h]

theorem requiredAgentNames_dup (pre post : List WorkflowStep) (s : WorkflowStep) :
    requiredAgentNames (pre ++ s :: s :: post) = requiredAgentNames (pre ++ s :: post) := by
  unfold requiredAgentNames
  rw [List.foldl_append, List.foldl_append, List.foldl_cons, List.foldl_cons,
    List.foldl_cons, addStepName_idem]

theorem requiredAgentNames_append_mem (steps : List WorkflowStep) (s : WorkflowStep)
    (h : s.agentName ∈ requiredAgentNames steps) :
    requiredAgentNames (steps ++ [s]) = requiredAgentNames steps := by
  unfold requiredAgentNames at h ⊢
  rw [List.foldl_append, List.foldl_cons, List.foldl_nil]
  unfold addStepName
  rw [if_neg]
  rintro ⟨-, hnm⟩
  exact hnm h

/-- Claim C7: the resolved requirements are computed over the set of
unique declared names: duplicating a step, or appending a step whose
declared name is already referenced, leaves `getRequiredAgents`, and with
it the computed readiness, unchanged. -/
theorem claim_C7 (pre post steps : List WorkflowStep) (s sNew : WorkflowStep)
    (reg : List Agent) (act : Bool) :
    (getRequiredAgents { steps := pre ++ s :: s :: post } reg =
      getRequiredAgents { steps := pre ++ s :: post } reg) ∧
    (readinessStatus { steps := pre ++ s :: s :: post } act reg =
      readinessStatus { steps := pre ++ s :: post } act reg) ∧
    (sNew.agentName ∈ requiredAgentNames steps →
      getRequiredAgents { steps := steps ++ [sNew] } reg =
        getRequiredAgents { steps := steps } reg) := by
  have h1 : getRequiredAgents { steps := pre ++ s :: s :: post } reg =
      getRequiredAgents { steps := pre ++ s :: post } reg := by
    unfold getRequiredAgents
    dsimp only
    rw [requiredAgentNames_dup]
  refine ⟨h1, ?_, ?_⟩
  · unfold readinessStatus
    rw [h1]
  · intro hmem
    unfold getRequiredAgents
    dsimp only
    rw [requiredAgentNames_append_mem _ _ hmem]

theorem claim_C7_witness :
    (getRequiredAgents { steps := [⟨"a", "t"⟩, ⟨"a", "t"⟩] } [] =
      getRequiredAgents { steps := [⟨"a", "t"⟩] } []) ∧
    (readinessStatus { steps := [⟨"a", "t"⟩, ⟨"a", "t"⟩] } true [] =
      readinessStatus { steps := [⟨"a", "t"⟩] } true []) ∧
    (getRequiredAgents { steps := [⟨"a", "t"⟩, ⟨"a", "u"⟩] } [] =
      getRequiredAgents { steps := [⟨"a", "t"⟩] } []) := by
  obtain ⟨h1, h2, h3⟩ := claim_C7 [] [] [⟨"a", "t"⟩] ⟨"a", "t"⟩ ⟨"a", "u"⟩ [] true
  exact ⟨h1, h2, h3 (by decide)⟩

/-- Claim C8: a workflow with zero unique required agent names is `ready`
whenever it is activated, against every registry snapshot. -/
theorem claim_C8 (wf : Workflow) (reg : List Agent)
    (h : requiredAgentNames wf.steps = []) :
    readinessStatus wf true reg = "ready" := by
  unfold readinessStatus
  rw [show getRequiredAgents wf reg = [] from by
    unfold getRequiredAgents; rw [h]; exact List.map_nil]
  decide

theorem claim_C8_witness :
    readinessStatus { steps := [⟨"", "noop"⟩] } true [⟨"x", "online"⟩] = "ready" :=
  claim_C8 { steps := [⟨"", "noop"⟩] } [⟨"x", "online"⟩] (by decide)

theorem foldl_addStepName_all_empty :
    ∀ (steps : List WorkflowStep) (acc : List String),
      (∀ s ∈ steps, s.agentName = "") → steps.foldl addStepName acc = acc
  | [], _, _ => rfl
  | s :: ss, acc, h => by
    rw [List.foldl_cons]
    have hskip : addStepName acc s = acc := by
      unfold addStepName
      rw [if_neg]
      rintro ⟨hne, -⟩
      exact hne (h s (List.mem_cons_self s ss))
    rw [hskip]
    exact foldl_addStepName_all_empty ss acc fun t ht => h t (List.mem_cons_of_mem _ ht)

theorem addStepName_empty (acc : List String) (e : WorkflowStep)
    (he : e.agentName = "") : addStepName acc e = acc := by
  unfold addStepName
  rw [if_neg]
  rintro ⟨hne, -⟩
  exact hne he

theorem requiredAgentNames_insert_empty (pre post : List WorkflowStep)
    (e : WorkflowStep) (he : e.agentName = "") :
    requiredAgentNames (pre ++ e :: post) = requiredAgentNames (pre ++ post) := by
  unfold requiredAgentNames
  rw [List.foldl_append, List.foldl_append, List.foldl_cons, addStepName_empty _ _ he]

/-- Claim C9: steps whose `agentName` is the empty string are excluded
from the required-agent set: inserting such a step anywhere in a workflow
leaves `getRequiredAgents`, and with it the computed readiness, unchanged;
consequently a workflow all of whose steps have an empty `agentName`
yields an empty requirement list and, once activated, is reported `ready`
for every registry snapshot. -/
theorem claim_C9 (pre post steps : List WorkflowStep) (e : WorkflowStep)
    (reg : List Agent) (act : Bool) (he : e.agentName = "") :
    (getRequiredAgents { steps := pre ++ e :: post } reg =
      getRequiredAgents { steps := pre ++ post } reg) ∧
    (readinessStatus { steps := pre ++ e :: post } act reg =
      readinessStatus { steps := pre ++ post } act reg) ∧
    ((∀ s ∈ steps, s.agentName = "") →
      getRequiredAgents { steps := steps } reg = [] ∧
      readinessStatus { steps := steps } true reg = "ready") := by
  have h1 : getRequiredAgents { steps := pre ++ e :: post } reg =
      getRequiredAgents { steps := pre ++ post } reg := by
    unfold getRequiredAgents
    dsimp only
    rw [requiredAgentNames_insert_empty _ _ _ he]
  refine ⟨h1, ?_, ?_⟩
  · unfold readinessStatus
    rw [h1]
  · intro hall
    have hn : requiredAgentNames steps = [] :=
      foldl_addStepName_all_empty steps [] hall
    have hreq : getRequiredAgents { steps := steps } reg = [] := by
      unfold getRequiredAgents
      dsimp only
      rw [hn]
      exact List.map_nil
    refine ⟨hreq, ?_⟩
    unfold readinessStatus
    rw [hreq]
    decide

theorem claim_C9_witness :
    (getRequiredAgents { steps := [⟨"a", "t"⟩, ⟨"", "x"⟩, ⟨"b", "u"⟩] } [⟨"x", "online"⟩] =
      getRequiredAgents { steps := [⟨"a", "t"⟩, ⟨"b", "u"⟩] } [⟨"x", "online"⟩]) ∧
    (readinessStatus { steps := [⟨"a", "t"⟩, ⟨"", "x"⟩, ⟨"b", "u"⟩] } true [⟨"x", "online"⟩] =
      readinessStatus { steps := [⟨"a", "t"⟩, ⟨"b", "u"⟩] } true [⟨"x", "online"⟩]) ∧
    (getRequiredAgents { steps := [⟨"", "a"⟩, ⟨"", "b"⟩] } [⟨"x", "online"⟩] = [] ∧
      readinessStatus { steps := [⟨"", "a"⟩, ⟨"", "b"⟩] } true [⟨"x", "online"⟩] = "ready") := by
  obtain ⟨h1, h2, h3⟩ :=
    claim_C9 [⟨"a", "t"⟩] [⟨"b", "u"⟩] [⟨"", "a"⟩, ⟨"", "b"⟩] ⟨"", "x"⟩
      [⟨"x", "online"⟩] true rfl
  exact ⟨h1, h2, h3 (by decide)⟩

theorem occursIn_nil (s : List Char) : occursIn [] s = true := by
  cases s with
  | nil => rfl
  | cons c cs => rfl

/-- Claim C10: a registered agent whose name is the empty string matches
every declared step name under the containment rule (the empty string is a
substring of every string); placed at the head of the registry it is the
first match for every name, so every step of every workflow resolves to it
and each entry's `isOnline` is exactly that agent's status being
`"online"`. -/
theorem claim_C10 (st : String) (rest : List Agent) (wf : Workflow) :
    (∀ agentName : String, agentMatches ⟨"", st⟩ agentName = true) ∧
    getRequiredAgents wf (⟨"", st⟩ :: rest) =
      (requiredAgentNames wf.steps).map
        (fun agentName =>
          { agentName := agentName, isOnline := st == "online", isEnabled := false }) := by
  have hmatch : ∀ agentName : String, agentMatches (Agent.mk "" st) agentName = true := by
    intro n
    have hc : jsIncludes (jsToLower n) (jsToLower (Agent.mk "" st).name) = true := by
      show occursIn ([] : List Char) (jsToLower n).data = true
      exact occursIn_nil _
    unfold agentMatches
    rw [hc]
    simp
  refine ⟨hmatch, ?_⟩
  unfold getRequiredAgents
  refine List.map_congr_left fun n hn => ?_
  have hfind : findMatchingAgent n (Agent.mk "" st :: rest) = some (Agent.mk "" st) := by
    unfold findMatchingAgent
    simp [List.find?, hmatch n]
  rw [hfind]

end A2A
